import Mathlib

/-!
# Hindi-OCR front end: submission, image acquisition and result display

A shallow embedding of the three React components of the front end
(`App.jsx`, `UploadForm.jsx`, `ResultDisplay.jsx`).

* React state is a record; every event handler and every asynchronous
  continuation is a function from the record before to the record after.
* What lives outside React state but is observable (HTTP requests that were
  issued and have not settled, `FileReader` reads that have not fired `onload`,
  `toBlob` callbacks that have not run, device tracks that are live) is kept in
  the same record, after the React fields.
* The browser runs handlers and continuations one at a time, so each of them is
  one atomic step. Output to the console is not part of the state.
-/

namespace HindiOcr

/-! ## JavaScript values -/

/-- JavaScript values as they occur in a parsed response body and in React state.
Numbers are kept as integers: the code only ever tests a number for being zero. -/
inductive JsVal where
  | undefined
  | null
  | bool (b : Bool)
  | num (n : Int)
  | str (s : String)
  | arr (items : List JsVal)
  | obj (fields : List (String × JsVal))

/-- The truthiness test of `if (v)`, `v && ...`: `undefined`, `null`, `false`, `0` and `''`
are falsy, everything else (every array and object included) is truthy. -/
def JsVal.truthy : JsVal → Bool
  | .undefined => false
  | .null => false
  | .bool b => b
  | .num n => n != 0
  | .str s => s != ""
  | .arr _ => true
  | .obj _ => true

/-- The property read `v.key` for a key that no prototype defines (`text`, `qa_pairs`):
`none` is the `TypeError` thrown on `undefined` and `null`; an object yields its own
property or `undefined`; every other value yields `undefined`. -/
def JsVal.getProp : JsVal → String → Option JsVal
  | .undefined, _ => none
  | .null, _ => none
  | .obj fields, key => some ((fields.lookup key).getD .undefined)
  | _, _ => some .undefined

/-- A `File` (or `Blob` wrapped in a `File`): its name, its declared MIME type and its
bytes, the bytes written in base64. -/
structure File where
  name : String
  type : String
  base64 : String
deriving DecidableEq

/-! ## `App.jsx` -/

/-- The constant `API_URL` of `App.jsx`. -/
def API_URL : String := "http://localhost:5000"

/-- One `axios.post` call: the URL and the file appended to the form data as `image`. -/
structure Request where
  url : String
  image : File
deriving DecidableEq

/-- The four `useState` cells of `App`, and the requests issued and not yet settled. -/
structure App where
  extractedText : JsVal
  qaResults : JsVal
  loading : Bool
  error : String
  inFlight : List Request

/-- The initial values given to `useState`, with no request issued. -/
def App.init : App :=
  { extractedText := .str "", qaResults := .arr [], loading := false, error := "",
    inFlight := [] }

/-- How an `axios.post` promise settles: resolved with `response.data` (a 2xx status), or
rejected (transport failure, or a status outside 2xx). -/
inductive Completion where
  | resolved (data : JsVal)
  | rejected

/-- The message passed to `setError` in the `catch` block. -/
def errorMessage : String :=
  "Error processing image. Please try again with a different image."

/-- The code of `processImage` up to the `await`: the four setters, then the request. -/
def processImage (s : App) (imageFile : File) : App :=
  { extractedText := .str "",
    qaResults := .arr [],
    loading := true,
    error := "",
    inFlight := s.inFlight ++ [{ url := API_URL ++ "/api/ocr", image := imageFile }] }

/-- The rest of the `try` block, run when the promise resolves. The flag says whether the
block threw. -/
def processImageTry (s : App) (data : JsVal) : App × Bool :=
  if data.truthy then
    match data.getProp "text" with
    | none => (s, true)
    | some text =>
      let s1 := { s with extractedText := text }
      match data.getProp "qa_pairs" with
      | none => (s1, true)
      | some qa => ({ s1 with qaResults := qa }, false)
  else (s, false)

/-- The `catch` block. -/
def processImageCatch (s : App) : App :=
  { s with error := errorMessage }

/-- The `finally` block. -/
def processImageFinally (s : App) : App :=
  { s with loading := false }

/-- The continuation of `processImage` after the `await`, for the request at position `i`
of the requests in flight: nothing happens when there is no such request. -/
def processImageResume (s : App) (i : Nat) (c : Completion) : App :=
  if i < s.inFlight.length then
    let s0 := { s with inFlight := s.inFlight.eraseIdx i }
    match c with
    | .resolved data =>
      match processImageTry s0 data with
      | (s1, true) => processImageFinally (processImageCatch s1)
      | (s1, false) => processImageFinally s1
    | .rejected => processImageFinally (processImageCatch s0)
  else s

/-- One whole run of `processImage` with nothing interleaved: the call, then the
settlement of the request that the call issued. -/
def processImageRun (s : App) (imageFile : File) (c : Completion) : App :=
  processImageResume (processImage s imageFile) s.inFlight.length c

/-- What React shows for the value of `!loading && extractedText && <ResultDisplay ... />`:
nothing (the value is `false`, `null`, `undefined` or `''`), a text (the value is a
number), or the element `ResultDisplay` with the two props it is given. -/
inductive Child where
  | nothing
  | text (s : String)
  | resultDisplay (extractedText qaResults : JsVal)

/-- No child is shown. -/
def Child.isNothing : Child → Bool
  | .nothing => true
  | _ => false

/-- What `App` renders below the upload form: the spinner, the error banner, and the third
conditional child. -/
structure AppView where
  spinner : Bool
  errorBanner : Option String
  result : Child

/-- The three conditional children of `<main>` in `App`. In the third, `!loading` is `false`
while loading; otherwise a falsy `extractedText` is itself the value of the expression,
and the only falsy value that React shows is the number `0`. -/
def App.render (s : App) : AppView :=
  { spinner := s.loading,
    errorBanner := if s.error != "" then some s.error else none,
    result :=
      if s.loading then .nothing
      else if s.extractedText.truthy then .resultDisplay s.extractedText s.qaResults
      else match s.extractedText with
        | .num _ => .text "0"
        | _ => .nothing }

/-- States that the events of `App` can reach from the initial one. -/
inductive App.Reachable : App → Prop where
  | init : App.Reachable App.init
  | submit (s : App) (imageFile : File) :
      App.Reachable s → App.Reachable (processImage s imageFile)
  | settle (s : App) (i : Nat) (c : Completion) :
      App.Reachable s → App.Reachable (processImageResume s i c)

/-- The outcome `Error`: a non-empty error message is set. -/
def App.isError (s : App) : Bool := s.error != ""

/-- The outcome `Idle`: not loading, no error, and the third child shows nothing. -/
def App.isIdle (s : App) : Bool := !s.loading && s.error == "" && s.render.result.isNothing

/-- The shape that section 6 of the specification asks of a response body:
`{ text: string, qa_pairs: [ { question: string, answer: string }, ... ] }`. -/
def wellFormedBody : JsVal → Bool
  | .obj fields =>
    (match fields.lookup "text" with
     | some (.str _) => true
     | _ => false) &&
    (match fields.lookup "qa_pairs" with
     | some (.arr items) =>
       items.all fun item =>
         match item with
         | .obj pair =>
           (match pair.lookup "question" with
            | some (.str _) => true
            | _ => false) &&
           (match pair.lookup "answer" with
            | some (.str _) => true
            | _ => false)
         | _ => false
     | _ => false)
  | _ => false

/-! ## `UploadForm.jsx` -/

/-- A `MediaStream`: the ids of the device tracks that `getTracks()` returns. -/
structure MediaStream where
  tracks : List Nat
deriving DecidableEq

/-- The `useState` cells of `UploadForm`, then what the component has started in the
browser: `FileReader` reads whose `onload` has not fired, `toBlob` callbacks that have not
run (each with the `cameraStream` that its closure holds), and the device tracks that are
live. -/
structure UploadForm where
  selectedFile : Option File
  previewUrl : String
  isCameraActive : Bool
  cameraStream : Option MediaStream
  reads : List File
  captures : List (Option MediaStream)
  liveTracks : List Nat

/-- The initial values given to `useState`, with nothing started. -/
def UploadForm.init : UploadForm :=
  { selectedFile := none, previewUrl := "", isCameraActive := false, cameraStream := none,
    reads := [], captures := [], liveTracks := [] }

/-- The pattern `image.*` tried at the start of `cs`: the literal `image`, then `.*`,
which matches whatever follows, the empty string included. -/
def matchHere (cs : List Char) : Bool :=
  "image".toList.isPrefixOf cs

/-- The search `String.prototype.match` does with a pattern without anchors: the pattern
is tried at every position. -/
def regexSearch : List Char → Bool
  | [] => matchHere []
  | c :: cs => matchHere (c :: cs) || regexSearch cs

/-- The test `file.type.match('image.*')`, a non-null match being truthy. -/
def typeMatches (type : String) : Bool :=
  regexSearch type.toList

/-- The pattern `image/*` as the specification reads it: a MIME type made of `image/`
followed by a subtype. -/
def isImageMime (type : String) : Bool :=
  "image/".toList.isPrefixOf type.toList && decide ("image/".length < type.length)

/-- The result of `readAsDataURL`: a data URI of the declared type and the bytes. -/
def readAsDataURL (file : File) : String :=
  "data:" ++ file.type ++ ";base64," ++ file.base64

/-- The handler `handleFileChange`; the argument is `event.target.files[0]`. -/
def handleFileChange (s : UploadForm) (files0 : Option File) : UploadForm :=
  match files0 with
  | some file =>
    if typeMatches file.type then
      { s with selectedFile := some file, reads := s.reads ++ [file] }
    else s
  | none => s

/-- The handler `handleDrop`; the argument is `event.dataTransfer.files[0]`. -/
def handleDrop (s : UploadForm) (files0 : Option File) : UploadForm :=
  match files0 with
  | some file =>
    if typeMatches file.type then
      { s with selectedFile := some file, reads := s.reads ++ [file] }
    else s
  | none => s

/-- The `reader.onload` callback of the read at position `i` of the pending reads. -/
def readerOnload (s : UploadForm) (i : Nat) : UploadForm :=
  match s.reads.get? i with
  | some file => { s with previewUrl := readAsDataURL file, reads := s.reads.eraseIdx i }
  | none => s

/-- The handler `handleFormSubmit`: the argument with which `onImageSubmit` is called, or
`none` when it is not called. The handler changes no state of the form. -/
def handleFormSubmit (s : UploadForm) : Option File :=
  match s.selectedFile with
  | some file => some file
  | none => none

/-- The condition under which the submit button is rendered. -/
def submitOffered (s : UploadForm) : Bool :=
  s.selectedFile.isSome && !s.isCameraActive

/-- Submission is permitted: the submit control is offered and `handleFormSubmit` calls
`onImageSubmit`. -/
def submitPermitted (s : UploadForm) : Bool :=
  submitOffered s && (handleFormSubmit s).isSome

/-- The `<video>` and `<canvas>` elements are rendered, so `videoRef.current` and
`canvasRef.current` are set, exactly when the camera is shown. -/
def videoMounted (s : UploadForm) : Bool :=
  s.isCameraActive

/-- The continuation of `activateCamera` after `getUserMedia`: `some stream` when access is
granted (its tracks are live from then on), `none` when the promise rejects. Assigning
`srcObject` throws when there is no `<video>` element; the `catch` block only logs. -/
def activateCamera (s : UploadForm) (granted : Option MediaStream) : UploadForm :=
  match granted with
  | some stream =>
    let s0 := { s with liveTracks := s.liveTracks ++ stream.tracks }
    if videoMounted s0 then
      { s0 with cameraStream := some stream, isCameraActive := true }
    else s0
  | none => s

/-- The call `track.stop()` on every track of a stream. -/
def stopTracks (live : List Nat) (stream : MediaStream) : List Nat :=
  live.filter fun t => !stream.tracks.contains t

/-- The body of `deactivateCamera` as a closure that holds `cameraStream`. -/
def deactivateCameraWith (held : Option MediaStream) (s : UploadForm) : UploadForm :=
  match held with
  | some stream =>
    { s with liveTracks := stopTracks s.liveTracks stream, cameraStream := none,
             isCameraActive := false }
  | none => { s with isCameraActive := false }

/-- The function `deactivateCamera` of the current render. -/
def deactivateCamera (s : UploadForm) : UploadForm :=
  deactivateCameraWith s.cameraStream s

/-- The function `captureImage` up to the call of `toBlob`: reading `video.videoWidth`
throws when there is no `<video>` element; otherwise the callback is queued, and it holds
the `deactivateCamera` of the current render. -/
def captureImage (s : UploadForm) : UploadForm :=
  if videoMounted s then { s with captures := s.captures ++ [s.cameraStream] } else s

/-- The callback given to `toBlob`, for the capture at position `i` of the queued ones;
`jpeg` is the encoded frame in base64. -/
def toBlobCallback (s : UploadForm) (i : Nat) (jpeg : String) : UploadForm :=
  match s.captures.get? i with
  | some held =>
    let file : File := { name := "camera-capture.jpg", type := "image/jpeg", base64 := jpeg }
    deactivateCameraWith held
      { s with selectedFile := some file,
               previewUrl := "data:image/jpeg;base64," ++ jpeg,
               captures := s.captures.eraseIdx i }
  | none => s

/-- A successful capture with nothing interleaved: `captureImage`, then its callback. -/
def captureImageRun (s : UploadForm) (jpeg : String) : UploadForm :=
  toBlobCallback (captureImage s) s.captures.length jpeg

/-- The tracks of a stream that are live. -/
def activeTracks (s : UploadForm) (stream : MediaStream) : List Nat :=
  stream.tracks.filter fun t => s.liveTracks.contains t

/-- The events of `UploadForm`. -/
inductive FormEvent where
  | fileChange (files0 : Option File)
  | drop (files0 : Option File)
  | onload (i : Nat)
  | activate (granted : Option MediaStream)
  | deactivate
  | capture
  | blob (i : Nat) (jpeg : String)

/-- One event applied to a state of the form. -/
def FormEvent.apply (s : UploadForm) : FormEvent → UploadForm
  | .fileChange files0 => handleFileChange s files0
  | .drop files0 => handleDrop s files0
  | .onload i => readerOnload s i
  | .activate granted => activateCamera s granted
  | .deactivate => deactivateCamera s
  | .capture => captureImage s
  | .blob i jpeg => toBlobCallback s i jpeg

/-- States that the events of `UploadForm` can reach from the initial one. -/
inductive UploadForm.Reachable : UploadForm → Prop where
  | init : UploadForm.Reachable UploadForm.init
  | step (s : UploadForm) (e : FormEvent) :
      UploadForm.Reachable s → UploadForm.Reachable (e.apply s)

/-- The way `handleFileChange` (`viaDrop = false`) or `handleDrop` (`viaDrop = true`)
takes a file. -/
def acquire (viaDrop : Bool) (s : UploadForm) (file : File) : UploadForm :=
  if viaDrop then handleDrop s (some file) else handleFileChange s (some file)

/-- A submit event on the form inside `App`: `handleFormSubmit`, whose `onImageSubmit` is
`processImage`. -/
def submit (form : UploadForm) (app : App) : App :=
  match handleFormSubmit form with
  | some file => processImage app file
  | none => app

/-! ## `ResultDisplay.jsx` -/

/-- One question with its answer, as `ResultDisplay` reads it. -/
structure QAPair where
  question : String
  answer : String
deriving DecidableEq

/-- The object `visibleAnswers`: its own properties, keyed by index. -/
abbrev VisibleAnswers := List (Nat × Bool)

/-- The read `visibleAnswers[index]` taken as a condition: a missing property is
`undefined`, which is falsy. -/
def isVisible (m : VisibleAnswers) (index : Nat) : Bool :=
  match m.lookup index with
  | some b => b
  | none => false

/-- The updater of `toggleAnswer`: a copy of `prev` in which `index` holds `!prev[index]`. -/
def toggleAnswer (prev : VisibleAnswers) (index : Nat) : VisibleAnswers :=
  (index, !isVisible prev index) :: prev.filter fun kv => kv.1 != index

/-- One rendered `qa-item`: the ordinal, the question, the label of the button, and the
answer when it is rendered. -/
structure QAItem where
  ordinal : Nat
  question : String
  button : String
  answer : Option String
deriving DecidableEq

/-- The callback given to `qaResults.map`. -/
def renderItem (m : VisibleAnswers) (pair : QAPair) (index : Nat) : QAItem :=
  { ordinal := index + 1,
    question := pair.question,
    button := if isVisible m index then "Hide Answer" else "Show Answer",
    answer := if isVisible m index then some pair.answer else none }

/-- The call `qaResults.map((pair, index) => ...)`, from index `start` on. -/
def mapWithIndex (m : VisibleAnswers) : List QAPair → Nat → List QAItem
  | [], _ => []
  | pair :: rest, start => renderItem m pair start :: mapWithIndex m rest (start + 1)

/-- What `ResultDisplay` renders below the extracted text. -/
inductive QASection where
  | questions (items : List QAItem)
  | noQuestions
  | nothing
deriving DecidableEq

/-- What `ResultDisplay` renders: the extracted text or the placeholder, then the section
of the questions. -/
structure ResultView where
  text : Option String
  section2 : QASection
deriving DecidableEq

/-- The component `ResultDisplay`, given its props and its state. -/
def ResultDisplay (extractedText : String) (qaResults : List QAPair) (m : VisibleAnswers) :
    ResultView :=
  { text := if extractedText != "" then some extractedText else none,
    section2 :=
      if qaResults.length > 0 then .questions (mapWithIndex m qaResults 0)
      else if extractedText != "" then .noQuestions
      else .nothing }

/-! ## `ResultDisplay` inside `App` -/

/-- One element of `qa_pairs` read as `ResultDisplay` reads it, `pair.question` and
`pair.answer`, when both are strings. -/
def asPair : JsVal → Option QAPair
  | .obj fields =>
    match fields.lookup "question", fields.lookup "answer" with
    | some (.str q), some (.str a) => some { question := q, answer := a }
    | _, _ => none
  | _ => none

/-- A list of values read as a list of pairs. -/
def asPairList : List JsVal → Option (List QAPair)
  | [] => some []
  | item :: rest =>
    match asPair item, asPairList rest with
    | some pair, some pairs => some (pair :: pairs)
    | _, _ => none

/-- The prop `qaResults` when it is an array of pairs. -/
def asPairs : JsVal → Option (List QAPair)
  | .arr items => asPairList items
  | _ => none

/-- What a newly mounted `ResultDisplay` (no answer toggled yet) shows inside `App`, for
the props on which the component is embedded here: a string and an array of pairs. The
value is `none` when `App` does not render the component, and for props of any other type,
on which the rendering of the component is not embedded. -/
def App.resultView (s : App) : Option ResultView :=
  match s.render.result with
  | .resultDisplay (.str text) qa =>
    match asPairs qa with
    | some pairs => some (ResultDisplay text pairs [])
    | none => none
  | _ => none

/-! ## Sample data -/

/-- A JPEG picked in the file dialog. -/
def sampleJpeg : File := { name := "page.jpg", type := "image/jpeg", base64 := "/9j/4AAQ" }

/-- A PNG picked in the file dialog. -/
def samplePng : File := { name := "scan.png", type := "image/png", base64 := "iVBORw0K" }

/-- A disc image, whose declared type names no image format. -/
def sampleIso : File :=
  { name := "disc.iso", type := "application/x-cd-image", base64 := "AAAA" }

/-- A stream of two tracks, as `getUserMedia` grants it. -/
def sampleStream : MediaStream := { tracks := [1, 2] }

/-- The response body of scenario A of the specification. -/
def sampleBody : JsVal :=
  .obj [("text", .str "नमस्ते"),
        ("qa_pairs", .arr [.obj [("question", .str "Q1"), ("answer", .str "A1")]])]

/-! ## Lemmas on `App` -/

theorem processImageResume_loading (s : App) (i : Nat) (c : Completion)
    (hi : i < s.inFlight.length) : (processImageResume s i c).loading = false := by
  unfold processImageResume
  rw [if_pos hi]
  cases c with
  | rejected => rfl
  | resolved data =>
    simp only []
    split <;> rfl

theorem processImageResume_stale (s : App) (i : Nat) (c : Completion)
    (hi : ¬ i < s.inFlight.length) : processImageResume s i c = s := by
  unfold processImageResume
  rw [if_neg hi]

/-- In every reachable state that is loading, the outcome fields have the values that
`processImage` gave them and a request is in flight. -/
theorem App.Reachable.loading_inv {s : App} (h : App.Reachable s) :
    s.loading = true →
      s.error = "" ∧ s.extractedText = .str "" ∧ s.qaResults = .arr [] ∧
        1 ≤ s.inFlight.length := by
  induction h with
  | init => intro hl; cases hl
  | submit s imageFile _ _ =>
    intro _
    simp [processImage]
  | settle s i c _ ih =>
    intro hl
    by_cases hi : i < s.inFlight.length
    · rw [processImageResume_loading s i c hi] at hl
      cases hl
    · rw [processImageResume_stale s i c hi] at hl ⊢
      exact ih hl

/-- The state in which the `try` block leaves a request that resolved with a body. -/
theorem processImageRun_resolved (s : App) (imageFile : File) (data : JsVal) :
    processImageRun s imageFile (.resolved data) =
      { extractedText := if data.truthy then (data.getProp "text").getD .undefined
                         else .str "",
        qaResults := if data.truthy then (data.getProp "qa_pairs").getD .undefined
                     else .arr [],
        loading := false,
        error := "",
        inFlight := s.inFlight } := by
  have hlen : s.inFlight.length < (processImage s imageFile).inFlight.length := by
    simp [processImage]
  have herase : (processImage s imageFile).inFlight.eraseIdx s.inFlight.length
      = s.inFlight := by
    simp [processImage, List.eraseIdx_append_of_length_le]
  unfold processImageRun processImageResume
  rw [if_pos hlen]
  simp only [herase]
  cases data <;>
    simp [processImageTry, JsVal.truthy, JsVal.getProp, processImage, processImageFinally]
  all_goals (split_ifs <;> rfl)

/-- The state in which the `catch` block leaves a request that was rejected. -/
theorem processImageRun_rejected (s : App) (imageFile : File) :
    processImageRun s imageFile .rejected =
      { extractedText := .str "", qaResults := .arr [], loading := false,
        error := errorMessage, inFlight := s.inFlight } := by
  have hlen : s.inFlight.length < (processImage s imageFile).inFlight.length := by
    simp [processImage]
  have herase : (processImage s imageFile).inFlight.eraseIdx s.inFlight.length
      = s.inFlight := by
    simp [processImage, List.eraseIdx_append_of_length_le]
  unfold processImageRun processImageResume
  rw [if_pos hlen]
  simp only [herase]
  simp [processImage, processImageFinally, processImageCatch]

/-! ## Lemmas on `UploadForm` -/

theorem activeTracks_stopTracks (s : UploadForm) (live : List Nat) (stream : MediaStream)
    (h : s.liveTracks = stopTracks live stream) : activeTracks s stream = [] := by
  unfold activeTracks
  rw [List.filter_eq_nil_iff]
  intro t ht hc
  rw [h] at hc
  simp [stopTracks] at hc
  exact hc.2 ht

theorem deactivateCameraWith_some (s : UploadForm) (stream : MediaStream) :
    activeTracks (deactivateCameraWith (some stream) s) stream = [] ∧
      (deactivateCameraWith (some stream) s).cameraStream = none ∧
      (deactivateCameraWith (some stream) s).isCameraActive = false :=
  ⟨activeTracks_stopTracks _ s.liveTracks stream rfl, rfl, rfl⟩

theorem getElem?_append_pair_snd {α : Type} (l : List α) (a b : α) :
    (l ++ [a, b])[l.length + 1]? = some b := by
  induction l with
  | nil => rfl
  | cons x xs ih => simpa using ih

theorem readAsDataURL_ne_empty (file : File) : readAsDataURL file ≠ "" := by
  intro h
  have hlen := congrArg String.length h
  simp [readAsDataURL, String.length_append] at hlen
  exact absurd hlen.1.1.1 (by decide)

/-! ## Lemmas on `ResultDisplay` -/

theorem lookup_filter_ne (m : VisibleAnswers) (i j : Nat) (h : j ≠ i) :
    (m.filter fun kv => kv.1 != i).lookup j = m.lookup j := by
  induction m with
  | nil => rfl
  | cons kv rest ih =>
    obtain ⟨k, v⟩ := kv
    by_cases hk : k = i
    · subst hk
      have hjk : (j == k) = false := by simpa using h
      simp [List.filter_cons, List.lookup_cons, hjk, ih]
    · by_cases hjk : j = k
      · subst hjk
        simp [List.filter_cons, List.lookup_cons, hk]
      · have hjk2 : (j == k) = false := by simpa using hjk
        simp [List.filter_cons, List.lookup_cons, hk, hjk2, ih]

theorem isVisible_toggleAnswer_self (m : VisibleAnswers) (i : Nat) :
    isVisible (toggleAnswer m i) i = !isVisible m i := by
  simp [isVisible, toggleAnswer, List.lookup_cons]

theorem isVisible_toggleAnswer_other (m : VisibleAnswers) (i j : Nat) (h : j ≠ i) :
    isVisible (toggleAnswer m i) j = isVisible m j := by
  have hji : (j == i) = false := by simpa using h
  simp only [isVisible, toggleAnswer, List.lookup_cons, hji]
  rw [lookup_filter_ne m i j h]

theorem mapWithIndex_length (m : VisibleAnswers) (qa : List QAPair) (start : Nat) :
    (mapWithIndex m qa start).length = qa.length := by
  induction qa generalizing start with
  | nil => rfl
  | cons pair rest ih => simp [mapWithIndex, ih]

theorem mapWithIndex_getElem? (m : VisibleAnswers) (qa : List QAPair) (start k : Nat) :
    (mapWithIndex m qa start)[k]? = (qa[k]?).map fun pair => renderItem m pair (start + k) := by
  induction qa generalizing start k with
  | nil => rfl
  | cons pair rest ih =>
    cases k with
    | zero => simp [mapWithIndex]
    | succ n =>
      simp only [mapWithIndex, List.getElem?_cons_succ, ih]
      congr 1
      funext p
      congr 1
      omega

/-! ## The claims on `App` -/

/-- C1, as the claim states it, fails: with one request in flight and a file selected, a
second submit issues a second request. -/
theorem submit_while_loading_counterexample :
    App.Reachable (processImage App.init sampleJpeg) ∧
    (processImage App.init sampleJpeg).loading = true ∧
    (processImage App.init sampleJpeg).inFlight.length = 1 ∧
    (handleFileChange UploadForm.init (some sampleJpeg)).selectedFile = some sampleJpeg ∧
    (submit (handleFileChange UploadForm.init (some sampleJpeg))
      (processImage App.init sampleJpeg)).inFlight.length = 2 ∧
    submit (handleFileChange UploadForm.init (some sampleJpeg))
      (processImage App.init sampleJpeg) ≠ processImage App.init sampleJpeg := by
  refine ⟨App.Reachable.submit _ _ App.Reachable.init, rfl, rfl, rfl, rfl, ?_⟩
  intro h
  have hlen := congrArg (fun a => a.inFlight.length) h
  revert hlen
  decide

/-- C1, amended: in every reachable state that is loading, a submit on a form with a
selected file is not ignored. It leaves the outcome fields (loading, error, extractedText,
qaResults) as they are and issues one more request for that file, so at least two requests
are in flight afterwards. -/
theorem submit_while_loading_issues_request (form : UploadForm) (app : App) (file : File)
    (hr : App.Reachable app) (hl : app.loading = true)
    (hf : form.selectedFile = some file) :
    (submit form app).loading = app.loading ∧
    (submit form app).error = app.error ∧
    (submit form app).extractedText = app.extractedText ∧
    (submit form app).qaResults = app.qaResults ∧
    (submit form app).inFlight
      = app.inFlight ++ [{ url := API_URL ++ "/api/ocr", image := file }] ∧
    2 ≤ (submit form app).inFlight.length := by
  obtain ⟨he, ht, hq, hn⟩ := hr.loading_inv hl
  have hsub : submit form app = processImage app file := by
    simp [submit, handleFormSubmit, hf]
  rw [hsub]
  refine ⟨?_, ?_, ?_, ?_, rfl, ?_⟩
  · rw [hl]; rfl
  · rw [he]; rfl
  · rw [ht]; rfl
  · rw [hq]; rfl
  · simp only [processImage, List.length_append, List.length_singleton]
    omega

/-- The amended C1 at the state reached by one submit of a JPEG. -/
theorem submit_while_loading_issues_request_witness :
    (submit (handleFileChange UploadForm.init (some sampleJpeg))
        (processImage App.init sampleJpeg)).loading = true ∧
    2 ≤ (submit (handleFileChange UploadForm.init (some sampleJpeg))
        (processImage App.init sampleJpeg)).inFlight.length :=
  have h := submit_while_loading_issues_request
    (handleFileChange UploadForm.init (some sampleJpeg)) (processImage App.init sampleJpeg)
    sampleJpeg (App.Reachable.submit _ _ App.Reachable.init) rfl rfl
  ⟨h.1, h.2.2.2.2.2⟩

/-- C3, as the claim states it, fails: a request that resolves with the body `null`, or
with an empty body, leaves the Idle state: not loading, no error, and nothing shown. -/
theorem leaving_loading_counterexample :
    (processImage App.init sampleJpeg).loading = true ∧
    ((processImageRun App.init sampleJpeg (.resolved .null)).isIdle = true ∧
      (processImageRun App.init sampleJpeg (.resolved .null)).isError = false ∧
      (processImageRun App.init sampleJpeg (.resolved .null)).render.result.isNothing
        = true) ∧
    ((processImageRun App.init sampleJpeg (.resolved (.str ""))).isIdle = true ∧
      (processImageRun App.init sampleJpeg (.resolved (.str ""))).isError = false ∧
      (processImageRun App.init sampleJpeg (.resolved (.str ""))).render.result.isNothing
        = true) :=
  ⟨rfl, ⟨rfl, rfl, rfl⟩, rfl, rfl, rfl⟩

/-- C3, amended: a run of `processImage` with nothing interleaved leaves Loading. When the
request is rejected the state is Error: the fixed message, and nothing shown as a result.
When it resolves with a falsy body (empty or `null`) the state is Idle. When it resolves
with a body whose `text` is a non-empty string and whose `qa_pairs` is an array of pairs,
the state is Success: no error, and `ResultDisplay` is rendered with that text and those
pairs and shows the text. -/
theorem leaving_loading_outcome (s : App) (imageFile : File) (c : Completion) :
    (processImage s imageFile).loading = true ∧
    (processImageRun s imageFile c).loading = false ∧
    match c with
    | .rejected =>
      (processImageRun s imageFile .rejected).error = errorMessage ∧
      (processImageRun s imageFile .rejected).isError = true ∧
      (processImageRun s imageFile .rejected).render.result.isNothing = true ∧
      (processImageRun s imageFile .rejected).isIdle = false
    | .resolved data =>
      (data.truthy = false →
        (processImageRun s imageFile (.resolved data)).isIdle = true ∧
        (processImageRun s imageFile (.resolved data)).isError = false) ∧
      ∀ (text : String) (pairs : List QAPair),
        data.getProp "text" = some (.str text) → text ≠ "" →
        asPairs ((data.getProp "qa_pairs").getD .undefined) = some pairs →
          (processImageRun s imageFile (.resolved data)).isError = false ∧
          (processImageRun s imageFile (.resolved data)).isIdle = false ∧
          (processImageRun s imageFile (.resolved data)).resultView
            = some (ResultDisplay text pairs []) ∧
          (ResultDisplay text pairs []).text = some text := by
  refine ⟨rfl, ?_, ?_⟩
  · cases c with
    | rejected => rw [processImageRun_rejected]
    | resolved data => rw [processImageRun_resolved]
  · cases c with
    | rejected =>
      simp only [processImageRun_rejected]
      refine ⟨?_, ?_, ?_, ?_⟩
      · trivial
      · simp [App.isError, errorMessage]
      · rfl
      · simp [App.isIdle, errorMessage]
    | resolved data =>
      simp only [processImageRun_resolved]
      refine ⟨?_, ?_⟩
      · intro hd
        simp only [hd, Bool.false_eq_true, if_false]
        exact ⟨rfl, rfl⟩
      · intro text pairs ht hne hq
        have hd : data.truthy = true := by
          cases data <;> simp [JsVal.getProp] at ht
          rfl
        have htt : (JsVal.str text).truthy = true := by
          simp [JsVal.truthy, hne]
        simp only [hd, if_true, ht, Option.getD_some]
        refine ⟨rfl, ?_, ?_, ?_⟩
        · simp [App.isIdle, App.render, htt, Child.isNothing]
        · simp [App.resultView, App.render, htt, hq]
        · simp [ResultDisplay, hne]

/-- The amended C3 at the response of scenario A: the state is Success and the text is
shown with its one question, the answer hidden. -/
theorem leaving_loading_outcome_witness :
    (processImageRun App.init sampleJpeg (.resolved sampleBody)).isError = false ∧
    (processImageRun App.init sampleJpeg (.resolved sampleBody)).isIdle = false ∧
    (processImageRun App.init sampleJpeg (.resolved sampleBody)).resultView
      = some (ResultDisplay "नमस्ते" [{ question := "Q1", answer := "A1" }] []) ∧
    (ResultDisplay "नमस्ते" [{ question := "Q1", answer := "A1" }] []).text
      = some "नमस्ते" :=
  (leaving_loading_outcome App.init sampleJpeg (.resolved sampleBody)).2.2.2
    "नमस्ते" [{ question := "Q1", answer := "A1" }] rfl (by decide) rfl

/-- C4, as the claim states it, fails: a 2xx response with the body `null`, which does not
have the shape, leaves no error message. -/
theorem malformed_body_counterexample :
    wellFormedBody .null = false ∧
    (processImageRun App.init sampleJpeg (.resolved .null)).error = "" ∧
    (processImageRun App.init sampleJpeg (.resolved .null)).error ≠ errorMessage ∧
    wellFormedBody (.obj [("text", .num 5)]) = false ∧
    (processImageRun App.init sampleJpeg (.resolved (.obj [("text", .num 5)]))).error = "" ∧
    (processImageRun App.init sampleJpeg (.resolved (.obj [("text", .num 5)]))).extractedText
      = .num 5 := by
  exact ⟨rfl, rfl, by decide, rfl, rfl, rfl⟩

/-- C4, amended: for every 2xx response, whatever the shape of its body, `processImage`
sets no error and ends loading. A falsy body stores nothing: extractedText stays `''` and
qaResults stays `[]`. Any other body has its `text` and `qa_pairs` properties stored as they
are, `undefined` when the body has none. -/
theorem resolved_body_stored_unchecked (s : App) (imageFile : File) (data : JsVal) :
    (processImageRun s imageFile (.resolved data)).error = "" ∧
    (processImageRun s imageFile (.resolved data)).isError = false ∧
    (processImageRun s imageFile (.resolved data)).loading = false ∧
    (processImageRun s imageFile (.resolved data)).extractedText
      = (if data.truthy then (data.getProp "text").getD .undefined else .str "") ∧
    (processImageRun s imageFile (.resolved data)).qaResults
      = (if data.truthy then (data.getProp "qa_pairs").getD .undefined else .arr []) := by
  rw [processImageRun_resolved]
  exact ⟨rfl, rfl, rfl, rfl, rfl⟩

/-- C5: for every prior state and every image, the call of `processImage` makes the state
Loading and discards the prior payload at once, and when the request is rejected with
nothing interleaved the final state is Error: the fixed message, not loading, extractedText
`''` and qaResults `[]`. -/
theorem rejected_request_ends_in_error (s : App) (imageFile : File) :
    ((processImage s imageFile).loading = true ∧
      (processImage s imageFile).error = "" ∧
      (processImage s imageFile).extractedText = .str "" ∧
      (processImage s imageFile).qaResults = .arr []) ∧
    (processImageRun s imageFile .rejected).error
      = "Error processing image. Please try again with a different image." ∧
    (processImageRun s imageFile .rejected).isError = true ∧
    (processImageRun s imageFile .rejected).loading = false ∧
    (processImageRun s imageFile .rejected).extractedText = .str "" ∧
    (processImageRun s imageFile .rejected).qaResults = .arr [] := by
  rw [processImageRun_rejected]
  refine ⟨⟨rfl, rfl, rfl, rfl⟩, rfl, ?_, rfl, rfl, rfl⟩
  simp [App.isError, errorMessage]

/-! ## The claims on `UploadForm` -/

/-- A file whose type the test of the handlers rejects, or no file, changes nothing. -/
theorem rejected_file_unchanged (s : UploadForm) (file : File)
    (h : typeMatches file.type = false) :
    handleFileChange s (some file) = s ∧ handleDrop s (some file) = s ∧
    handleFileChange s none = s ∧ handleDrop s none = s := by
  simp [handleFileChange, handleDrop, h]

/-- A file whose type the test of the handlers accepts becomes the selected file, and its
read is queued behind the pending ones; the preview is not touched. -/
theorem acquire_accepted (viaDrop : Bool) (s : UploadForm) (file : File)
    (h : typeMatches file.type = true) :
    acquire viaDrop s file
      = { s with selectedFile := some file, reads := s.reads ++ [file] } := by
  cases viaDrop <;> simp [acquire, handleFileChange, handleDrop, h]

/-- C2, the code at the failing input: a disc image of type `application/x-cd-image`, which
is not of the form `image/*`, passes the test of both handlers, replaces a selected PNG and
has a preview read started. -/
theorem non_image_type_accepted :
    isImageMime sampleIso.type = false ∧
    (handleFileChange UploadForm.init (some samplePng)).selectedFile = some samplePng ∧
    (handleFileChange (handleFileChange UploadForm.init (some samplePng))
      (some sampleIso)).selectedFile = some sampleIso ∧
    (handleFileChange (handleFileChange UploadForm.init (some samplePng))
      (some sampleIso)).reads = [samplePng, sampleIso] ∧
    (handleDrop (handleFileChange UploadForm.init (some samplePng))
      (some sampleIso)).selectedFile = some sampleIso ∧
    (handleDrop (handleFileChange UploadForm.init (some samplePng))
      (some sampleIso)).reads = [samplePng, sampleIso] := by
  decide

/-- In every state the form can reach, the camera is inactive, no stream is stored and no
capture is queued: `activateCamera` throws before it stores the stream it was granted. -/
theorem UploadForm.Reachable.camera_inactive {s : UploadForm} (h : UploadForm.Reachable s) :
    s.isCameraActive = false ∧ s.cameraStream = none ∧ s.captures = [] := by
  induction h with
  | init => exact ⟨rfl, rfl, rfl⟩
  | step s e _ ih =>
    obtain ⟨ha, hs, hc⟩ := ih
    cases e with
    | fileChange files0 =>
      cases files0 with
      | none => exact ⟨ha, hs, hc⟩
      | some file =>
        by_cases hm : typeMatches file.type = true <;>
          simp [FormEvent.apply, handleFileChange, hm, ha, hs, hc]
    | drop files0 =>
      cases files0 with
      | none => exact ⟨ha, hs, hc⟩
      | some file =>
        by_cases hm : typeMatches file.type = true <;>
          simp [FormEvent.apply, handleDrop, hm, ha, hs, hc]
    | onload i =>
      simp only [FormEvent.apply, readerOnload]
      split <;> exact ⟨ha, hs, hc⟩
    | activate granted =>
      cases granted with
      | none => exact ⟨ha, hs, hc⟩
      | some stream => simp [FormEvent.apply, activateCamera, videoMounted, ha, hs, hc]
    | deactivate =>
      simp [FormEvent.apply, deactivateCamera, deactivateCameraWith, hs, hc]
    | capture =>
      simp [FormEvent.apply, captureImage, videoMounted, ha, hs, hc]
    | blob i jpeg =>
      simp [FormEvent.apply, toBlobCallback, ha, hs, hc]

/-- No event of the form stops a track in a state the form can reach: a track that is live
stays live. -/
theorem UploadForm.Reachable.track_stays_live {s : UploadForm} (h : UploadForm.Reachable s)
    (e : FormEvent) (t : Nat) (ht : t ∈ s.liveTracks) : t ∈ (e.apply s).liveTracks := by
  obtain ⟨ha, hs, hc⟩ := h.camera_inactive
  cases e with
  | fileChange files0 =>
    cases files0 with
    | none => exact ht
    | some file =>
      by_cases hm : typeMatches file.type = true <;>
        simp [FormEvent.apply, handleFileChange, hm, ht]
  | drop files0 =>
    cases files0 with
    | none => exact ht
    | some file =>
      by_cases hm : typeMatches file.type = true <;>
        simp [FormEvent.apply, handleDrop, hm, ht]
  | onload i =>
    simp only [FormEvent.apply, readerOnload]
    split <;> exact ht
  | activate granted =>
    cases granted with
    | none => exact ht
    | some stream => simp [FormEvent.apply, activateCamera, videoMounted, ha, ht]
  | deactivate =>
    simp [FormEvent.apply, deactivateCamera, deactivateCameraWith, hs, ht]
  | capture =>
    simp [FormEvent.apply, captureImage, videoMounted, ha, ht]
  | blob i jpeg =>
    simp [FormEvent.apply, toBlobCallback, hc, ht]

/-- C6, the code at the failing input: `activateCamera` is called on the initial form and
access is granted with a stream of two tracks. The assignment to `srcObject` throws, so the
stream is not stored and the camera does not become active, while both tracks are live.
Neither `deactivateCamera` nor `captureImage` stops them afterwards. -/
theorem granted_stream_never_released :
    UploadForm.Reachable (activateCamera UploadForm.init (some sampleStream)) ∧
    (activateCamera UploadForm.init (some sampleStream)).isCameraActive = false ∧
    (activateCamera UploadForm.init (some sampleStream)).cameraStream = none ∧
    activeTracks (activateCamera UploadForm.init (some sampleStream)) sampleStream
      = [1, 2] ∧
    activeTracks (deactivateCamera (activateCamera UploadForm.init (some sampleStream)))
      sampleStream = [1, 2] ∧
    activeTracks (captureImage (activateCamera UploadForm.init (some sampleStream)))
      sampleStream = [1, 2] ∧
    activeTracks
      (captureImageRun (activateCamera UploadForm.init (some sampleStream)) "/9j/4AAQ")
      sampleStream = [1, 2] :=
  ⟨UploadForm.Reachable.step UploadForm.init (.activate (some sampleStream))
    UploadForm.Reachable.init, rfl, rfl, by decide, by decide, by decide, by decide⟩

/-- C7, as the claim states it, fails: a JPEG is picked, then a PNG is dropped; the read of
the PNG completes first and the read of the JPEG after it. The selected file is the PNG and
the preview is the data URI of the JPEG. -/
theorem stale_preview_counterexample :
    typeMatches sampleJpeg.type = true ∧ typeMatches samplePng.type = true ∧
    (readerOnload (readerOnload
      (handleDrop (handleFileChange UploadForm.init (some sampleJpeg)) (some samplePng))
      1) 0).selectedFile = some samplePng ∧
    (readerOnload (readerOnload
      (handleDrop (handleFileChange UploadForm.init (some sampleJpeg)) (some samplePng))
      1) 0).reads = [] ∧
    (readerOnload (readerOnload
      (handleDrop (handleFileChange UploadForm.init (some sampleJpeg)) (some samplePng))
      1) 0).previewUrl = readAsDataURL sampleJpeg ∧
    (readerOnload (readerOnload
      (handleDrop (handleFileChange UploadForm.init (some sampleJpeg)) (some samplePng))
      1) 0).previewUrl ≠ readAsDataURL samplePng := by
  decide

/-- C7, amended: for every two accepted selections A then B, by file picker or drop in any
combination, no completion is discarded: each sets the preview to the data URI of its own
file. After both reads complete the selected file is B, and the preview is that of B when
the reads complete in the order of selection, and that of A when the read of B completes
first. -/
theorem preview_follows_last_completion (s : UploadForm) (a b : File)
    (viaDropA viaDropB : Bool)
    (ha : typeMatches a.type = true) (hb : typeMatches b.type = true) :
    (acquire viaDropB (acquire viaDropA s a) b).selectedFile = some b ∧
    (acquire viaDropB (acquire viaDropA s a) b).reads = s.reads ++ [a, b] ∧
    (acquire viaDropB (acquire viaDropA s a) b).previewUrl = s.previewUrl ∧
    (readerOnload (readerOnload (acquire viaDropB (acquire viaDropA s a) b)
      s.reads.length) s.reads.length).previewUrl = readAsDataURL b ∧
    (readerOnload (readerOnload (acquire viaDropB (acquire viaDropA s a) b)
      s.reads.length) s.reads.length).selectedFile = some b ∧
    (readerOnload (acquire viaDropB (acquire viaDropA s a) b)
      (s.reads.length + 1)).previewUrl = readAsDataURL b ∧
    (readerOnload (readerOnload (acquire viaDropB (acquire viaDropA s a) b)
      (s.reads.length + 1)) s.reads.length).previewUrl = readAsDataURL a ∧
    (readerOnload (readerOnload (acquire viaDropB (acquire viaDropA s a) b)
      (s.reads.length + 1)) s.reads.length).selectedFile = some b := by
  rw [acquire_accepted viaDropA s a ha, acquire_accepted viaDropB _ b hb]
  have hsnd := getElem?_append_pair_snd s.reads a b
  simp [readerOnload, List.getElem?_append_right, List.eraseIdx_append_of_length_le, hsnd]

/-- The amended C7 at a picked JPEG followed by a dropped PNG. -/
theorem preview_follows_last_completion_witness :
    (readerOnload (readerOnload (acquire true (acquire false UploadForm.init sampleJpeg)
      samplePng) 0) 0).previewUrl = readAsDataURL samplePng ∧
    (readerOnload (readerOnload (acquire true (acquire false UploadForm.init sampleJpeg)
      samplePng) 1) 0).previewUrl = readAsDataURL sampleJpeg :=
  have h := preview_follows_last_completion UploadForm.init sampleJpeg samplePng false true
    (by decide) (by decide)
  ⟨h.2.2.2.1, h.2.2.2.2.2.2.1⟩

/-- C10, as the claim states it, fails: right after a JPEG is picked, a state the form
reaches in one step, submission is permitted and the preview is still empty. -/
theorem submit_before_preview_counterexample :
    UploadForm.Reachable (handleFileChange UploadForm.init (some sampleJpeg)) ∧
    (handleFileChange UploadForm.init (some sampleJpeg)).selectedFile = some sampleJpeg ∧
    submitPermitted (handleFileChange UploadForm.init (some sampleJpeg)) = true ∧
    (handleFileChange UploadForm.init (some sampleJpeg)).previewUrl = "" :=
  ⟨UploadForm.Reachable.step UploadForm.init (.fileChange (some sampleJpeg))
    UploadForm.Reachable.init, rfl, rfl, rfl⟩

/-- C10, amended: in every state of the form, submission is permitted exactly when a file
is selected and the camera is inactive. An accepted file, picked or dropped, is selected at
once, which permits submission when the camera is inactive, while the preview keeps the
value it had; the preview of the file, a non-empty data URI, is set when its read
completes. -/
theorem submit_permitted_on_selection (s : UploadForm) (file : File) (viaDrop : Bool)
    (hf : typeMatches file.type = true) :
    submitPermitted s = (s.selectedFile.isSome && !s.isCameraActive) ∧
    (acquire viaDrop s file).selectedFile = some file ∧
    submitPermitted (acquire viaDrop s file) = !s.isCameraActive ∧
    (acquire viaDrop s file).previewUrl = s.previewUrl ∧
    (readerOnload (acquire viaDrop s file) s.reads.length).previewUrl
      = readAsDataURL file ∧
    readAsDataURL file ≠ "" := by
  rw [acquire_accepted viaDrop s file hf]
  refine ⟨?_, rfl, ?_, rfl, ?_, readAsDataURL_ne_empty file⟩
  · cases hsel : s.selectedFile <;> simp [submitPermitted, submitOffered, handleFormSubmit, hsel]
  · simp [submitPermitted, submitOffered, handleFormSubmit]
  · simp [readerOnload]

/-- The amended C10 at the initial state and a picked JPEG. -/
theorem submit_permitted_on_selection_witness :
    submitPermitted (acquire false UploadForm.init sampleJpeg) = true ∧
    (acquire false UploadForm.init sampleJpeg).previewUrl = "" ∧
    (readerOnload (acquire false UploadForm.init sampleJpeg) 0).previewUrl
      = readAsDataURL sampleJpeg :=
  have h := submit_permitted_on_selection UploadForm.init sampleJpeg false (by decide)
  ⟨h.2.2.1, h.2.2.2.1, h.2.2.2.2.1⟩

/-! ## The claims on `ResultDisplay` -/

/-- C8: for every disclosure state and every index `i`, two calls of `toggleAnswer(i)` in
succession restore the disclosure value at `i`, one call flips it, and one call leaves the
disclosure value at every index `j` other than `i` as it was. -/
theorem toggle_twice_restores (m : VisibleAnswers) (i j : Nat) (h : j ≠ i) :
    isVisible (toggleAnswer (toggleAnswer m i) i) i = isVisible m i ∧
    isVisible (toggleAnswer m i) i = !isVisible m i ∧
    isVisible (toggleAnswer m i) j = isVisible m j := by
  refine ⟨?_, isVisible_toggleAnswer_self m i, isVisible_toggleAnswer_other m i j h⟩
  rw [isVisible_toggleAnswer_self, isVisible_toggleAnswer_self, Bool.not_not]

/-- C8 at the empty disclosure state, index 0 toggled and index 1 observed. -/
theorem toggle_twice_restores_witness :
    isVisible (toggleAnswer (toggleAnswer [] 0) 0) 0 = isVisible [] 0 ∧
    isVisible (toggleAnswer [] 0) 0 = !isVisible [] 0 ∧
    isVisible (toggleAnswer [] 0) 1 = isVisible [] 1 :=
  toggle_twice_restores [] 0 1 (by decide)

/-- C9: for every non-empty list of pairs and every disclosure state, `ResultDisplay`
renders the list of questions, one item per pair in the order of the list; the item at
index `k` carries the ordinal `k + 1` and the question of pair `k`, and the answer of pair
`k` exactly when the disclosure state at `k` is true. With the empty disclosure state the
answer at `k` is hidden, and after one `toggleAnswer(j)` it is shown exactly when
`k = j`. -/
theorem questions_rendered (extractedText : String) (qaResults : List QAPair)
    (m : VisibleAnswers) (k : Nat) (pair : QAPair)
    (hne : qaResults ≠ []) (hk : qaResults[k]? = some pair) :
    (ResultDisplay extractedText qaResults m).section2
      = .questions (mapWithIndex m qaResults 0) ∧
    (mapWithIndex m qaResults 0).length = qaResults.length ∧
    (mapWithIndex m qaResults 0)[k]?
      = some { ordinal := k + 1,
               question := pair.question,
               button := if isVisible m k then "Hide Answer" else "Show Answer",
               answer := if isVisible m k then some pair.answer else none } ∧
    ((mapWithIndex [] qaResults 0)[k]?).map QAItem.answer = some none ∧
    ∀ j : Nat, ((mapWithIndex (toggleAnswer [] j) qaResults 0)[k]?).map QAItem.answer
      = some (if k = j then some pair.answer else none) := by
  have hpos : qaResults.length > 0 := List.length_pos.mpr hne
  refine ⟨?_, mapWithIndex_length m qaResults 0, ?_, ?_, ?_⟩
  · simp [ResultDisplay, hpos]
  · simp [mapWithIndex_getElem?, hk, renderItem]
  · simp [mapWithIndex_getElem?, hk, renderItem, isVisible]
  · intro j
    by_cases hkj : k = j
    · subst hkj
      have hv : isVisible (toggleAnswer [] k) k = true := by
        rw [isVisible_toggleAnswer_self]; rfl
      simp [mapWithIndex_getElem?, hk, renderItem, hv]
    · have hv : isVisible (toggleAnswer [] j) k = false := by
        rw [isVisible_toggleAnswer_other [] j k hkj]; rfl
      simp [mapWithIndex_getElem?, hk, renderItem, hv, hkj]

/-- C9 at the response of scenario A: one question, hidden at first, shown after its
toggle. -/
theorem questions_rendered_witness :
    (ResultDisplay "नमस्ते" [{ question := "Q1", answer := "A1" }] []).section2
      = .questions [{ ordinal := 1, question := "Q1", button := "Show Answer",
                      answer := none }] ∧
    ((mapWithIndex (toggleAnswer [] 0) [{ question := "Q1", answer := "A1" }] 0)[0]?).map
      QAItem.answer = some (some "A1") :=
  have h := questions_rendered "नमस्ते" [{ question := "Q1", answer := "A1" }] [] 0
    { question := "Q1", answer := "A1" } (by decide) rfl
  ⟨h.1, h.2.2.2.2 0⟩

end HindiOcr
